import Mathlib

set_option maxHeartbeats 1000000

/-!
Verification of the retrieval-augmented answering pipeline of the
langchain-document-assistant repository.  Python strings are modelled as
lists of characters; the opaque external capabilities (retriever, language
model, web-search agent, embedding backend) are modelled as inputs giving
the outcome of each call, with exceptions as `Except.error` carrying the
exception text.
-/

/-- Python strings, modelled as lists of characters. -/
abbrev Str := List Char

/-- Characters stripped by Python `str.strip()`.  Python strips all Unicode
whitespace; every input considered in this development is ASCII, so the
ASCII whitespace set suffices. -/
def isPySpace (c : Char) : Bool :=
  c = ' ' || c = '\t' || c = '\n' || c = '\x0d' || c = '\x0b' || c = '\x0c'

/-- Drop the leading run of whitespace characters (Python `str.lstrip()`). -/
def dropLeadSpace : Str → Str
  | [] => []
  | c :: rest => if isPySpace c then dropLeadSpace rest else c :: rest

/-- Python `str.strip()`: drop whitespace from both ends. -/
def pyStrip (s : Str) : Str :=
  dropLeadSpace ((dropLeadSpace s.reverse).reverse)

/-- Python `str.split('\n')`: split on every newline, keeping empty pieces
(`''.split('\n') == ['']`). -/
def splitLines : Str → List Str
  | [] => [[]]
  | c :: rest =>
    if c = '\n' then [] :: splitLines rest
    else
      match splitLines rest with
      | [] => [[c]]
      | l :: ls => (c :: l) :: ls

/-- Python `sep.join(parts)`. -/
def joinSep (sep : Str) : List Str → Str
  | [] => []
  | [x] => x
  | x :: y :: xs => x ++ sep ++ joinSep sep (y :: xs)

/-- Boolean test that `t` is a leading segment of `s`. -/
def leadMatch : Str → Str → Bool
  | [], _ => true
  | _ :: _, [] => false
  | a :: as, b :: bs => a = b && leadMatch as bs

/-- Boolean version of the Python substring test `t in s`. -/
def containsStr (t : Str) : Str → Bool
  | [] => leadMatch t []
  | c :: rest => leadMatch t (c :: rest) || containsStr t rest

/-- Fuel-driven core of `pyReplaceEmpty`; the fuel is an upper bound on the
length of the string still to scan. -/
def pyReplaceEmptyAux (old : Str) : Nat → Str → Str
  | 0, s => s
  | _ + 1, [] => []
  | fuel + 1, c :: rest =>
    if old ≠ [] && leadMatch old (c :: rest) then
      pyReplaceEmptyAux old fuel ((c :: rest).drop old.length)
    else
      c :: pyReplaceEmptyAux old fuel rest

/-- Python `s.replace(old, '')`: one left-to-right pass deleting each
non-overlapping occurrence of `old` and resuming the scan after the
deleted occurrence. -/
def pyReplaceEmpty (old s : Str) : Str :=
  pyReplaceEmptyAux old s.length s

/-- The whitespace normalization used by the pipeline before returning an
answer (`rag_chain.py` lines 129-130 and 145-150): strip the whole string,
split on newlines, strip each line, drop blank lines, rejoin. -/
def normalizeAnswer (s : Str) : Str :=
  joinSep ['\n'] (((splitLines (pyStrip s)).map pyStrip).filter (fun l => l ≠ []))

/-- The metadata dictionary attached to a document page or chunk
(`document_processor.py`).  `none` models an absent key. -/
structure DocMeta where
  source : Option Str
  filename : Option Str
  page_number : Option Nat
  chunk_index : Option Nat
  total_chunks : Option Nat
deriving DecidableEq

/-- A LangChain `Document`: page content plus metadata. -/
structure Doc where
  page_content : Str
  metadata : DocMeta
deriving DecidableEq

/-- One entry of the `sources` list built by `format_docs_with_metadata`. -/
structure SourceInfo where
  chunk_number : Nat
  content : Str
  metadata : DocMeta
deriving DecidableEq

/-- A Streamlit UI side effect performed by the pipeline: `st.info` or
`st.error`. -/
inductive UIEvent where
  | info (msg : Str)
  | uiError (msg : Str)
deriving DecidableEq

/-- Outcomes of the four external calls a single run of
`generate_enhanced_answer` can perform.  Each call is to an opaque
collaborator (retriever, language model, search agent), so its outcome is
an input of the model; `Except.error` carries `str(e)` of the raised
exception. -/
structure PipelineEnv where
  retrieval : Except Str (List Doc)
  firstResponse : Except Str Str
  lookupResult : Except Str Str
  secondResponse : Except Str Str

/-- The metadata header lines of `format_docs_with_metadata`
(`src/src/core/document_processor.py` lines 182-188): `File:` when the
filename is truthy, `Page:` when the page number is truthy (Python
truthiness: `0` is falsy), `Chunk:` whenever `chunk_index` is present. -/
def metaParts (m : DocMeta) : List Str :=
  (match m.filename with
   | some f => if f = [] then [] else ["File: ".data ++ f]
   | none => []) ++
  (match m.page_number with
   | some p => if p = 0 then [] else ["Page: ".data ++ (Nat.repr p).data]
   | none => []) ++
  (match m.chunk_index with
   | some i =>
     ["Chunk: ".data ++ (Nat.repr (i + 1)).data ++ "/".data ++
       (match m.total_chunks with
        | some t => (Nat.repr t).data
        | none => "?".data)]
   | none => [])

/-- The formatted block for the `i`-th retrieved chunk (1-based), per
`format_docs_with_metadata`. -/
def formatChunk (i : Nat) (d : Doc) : Str :=
  let header := "--- Source ".data ++ (Nat.repr i).data ++ " ---".data
  let parts := metaParts d.metadata
  let header :=
    if parts = [] then header
    else header ++ "\n[".data ++ joinSep " | ".data parts ++ "]".data
  header ++ "\n\n".data ++ d.page_content

/-- Embedding of `format_docs_with_metadata`
(`src/src/core/document_processor.py` lines 156-195): renders each
retrieved chunk with a citation header and simultaneously builds the
per-chunk source list. -/
def format_docs_with_metadata (docs : List Doc) : Str × List SourceInfo :=
  (joinSep "\n\n".data ((docs.enumFrom 1).map (fun p => formatChunk p.1 p.2)),
   (docs.enumFrom 1).map (fun p => ⟨p.1, p.2.page_content, p.2.metadata⟩))

/-- The escalation sentinel token (`rag_chain.py` line 104). -/
def sentinel : Str := "[EXTERNAL_SEARCH_NEEDED]".data

/-- The fixed fallback answer (`rag_chain.py` lines 138, 151). -/
def insufficientMsg : Str :=
  "I don".data ++ '\'' :: "t have sufficient information to answer this query.".data

/-- Prefix of the error string returned by the outer exception handler
(`rag_chain.py` line 156). -/
def errorPrefix : Str := "Error generating response: ".data

/-- Prefix of the `st.error` message on escalation failure
(`rag_chain.py` line 135). -/
def searchFailedPrefix : Str := "External search failed: ".data

/-- The `st.info` message shown when escalation starts
(`rag_chain.py` line 107). -/
def searchingMsg : Str :=
  "🔍 Document context insufficient. Searching external sources...".data

/-- Embedding of `generate_enhanced_answer` (`src/core/rag_chain.py` lines
59-156; `src/src/core/rag_chain.py` lines 68-182 is line-for-line the same
logic).  Returns the `(answer, sources)` pair of the Python function plus
the list of Streamlit messages it displayed. -/
def generate_enhanced_answer (env : PipelineEnv)
    (external_search_enabled external_search_available : Bool) :
    Str × List SourceInfo × List UIEvent :=
  match env.retrieval with
  | .error e => (errorPrefix ++ e, [], [])
  | .ok docs =>
    let sources := (format_docs_with_metadata docs).2
    match env.firstResponse with
    | .error e => (errorPrefix ++ e, sources, [])
    | .ok initial_response =>
      if external_search_enabled && containsStr sentinel initial_response &&
          external_search_available then
        match env.lookupResult with
        | .error e =>
          let fallback_response := pyStrip (pyReplaceEmpty sentinel initial_response)
          ((if fallback_response = [] then insufficientMsg else fallback_response),
           sources,
           [UIEvent.info searchingMsg, UIEvent.uiError (searchFailedPrefix ++ e)])
        | .ok _external_results =>
          match env.secondResponse with
          | .error e =>
            let fallback_response := pyStrip (pyReplaceEmpty sentinel initial_response)
            ((if fallback_response = [] then insufficientMsg else fallback_response),
             sources,
             [UIEvent.info searchingMsg, UIEvent.uiError (searchFailedPrefix ++ e)])
          | .ok final_response =>
            (normalizeAnswer final_response, sources, [UIEvent.info searchingMsg])
      else
        let cleaned_response :=
          if external_search_enabled then
            normalizeAnswer (pyReplaceEmpty sentinel initial_response)
          else
            normalizeAnswer initial_response
        ((if cleaned_response = [] then insufficientMsg else cleaned_response),
         sources, [])

namespace ChromaVectorStore

/-- Embedding of `ChromaVectorStore.add_documents` (`src/core/vector_store.py`
lines 35-39): raises `ValueError` on an empty batch, otherwise hands the
chunks to the backing store, modelled as appending them to the collection
contents. -/
def add_documents (document_chunks : List Doc) (store : List Doc) :
    Except Str (List Doc) :=
  if document_chunks = [] then
    .error "No document chunks to index. The document may be empty or failed to load.".data
  else
    .ok (store ++ document_chunks)

/-- Embedding of `ChromaVectorStore.document_exists` (`src/core/vector_store.py`
lines 41-50).  `getResult` is the outcome of `self.vector_db.get()`; on
success it carries the `metadatas` list, whose entries may be `None`
(filtered by `if doc`).  Any exception is swallowed and yields `False`. -/
def document_exists (getResult : Except Str (List (Option DocMeta)))
    (file_name : Str) : Bool :=
  match getResult with
  | .error _ => false
  | .ok metadatas =>
    ((metadatas.filterMap id).map (fun m => m.source.getD [])).any
      (fun file_path => containsStr file_name file_path)

/-- Embedding of `ChromaVectorStore.reset` (`src/core/vector_store.py` lines
56-67): `delete_collection` with any exception swallowed, then a fresh
`Chroma` handle on the same collection name and persist directory.  The
state is the persisted collection contents; when the delete succeeds the
recreated collection is empty, when it fails (swallowed) the recreated
handle reattaches to the still-persisted contents. -/
def reset (deleteSucceeded : Bool) (store : List Doc) : List Doc :=
  if deleteSucceeded then [] else store

end ChromaVectorStore

namespace InMemoryVectorStoreWrapper

/-- Embedding of `InMemoryVectorStoreWrapper.add_documents`
(`src/core/vector_store.py` lines 77-79): no guard of its own, the chunks
are handed directly to the backing `InMemoryVectorStore`, modelled as
appending them (an empty batch embeds nothing and succeeds). -/
def add_documents (document_chunks : List Doc) (store : List Doc) :
    Except Str (List Doc) :=
  .ok (store ++ document_chunks)

/-- Embedding of `InMemoryVectorStoreWrapper.document_exists`
(`src/core/vector_store.py` lines 81-90).  `searchResult` is the outcome of
`self.vector_db.similarity_search("", k=1000)`; every LangChain `Document`
has a `metadata` attribute, so the `hasattr` filter keeps all of them.
Any exception is swallowed and yields `False`; an empty result list falls
through to `return False`. -/
def document_exists (searchResult : Except Str (List Doc)) (file_name : Str) :
    Bool :=
  match searchResult with
  | .error _ => false
  | .ok stored_docs =>
    if stored_docs = [] then false
    else
      (stored_docs.map (fun d => d.metadata.source.getD [])).any
        (fun file_path => containsStr file_name file_path)

end InMemoryVectorStoreWrapper

/-- The public methods a store wrapper class defines. -/
inductive StoreOp where
  | add_documents
  | document_exists
  | create_retriever
  | reset
deriving DecidableEq

/-- The methods defined in the class body of `ChromaVectorStore`
(`src/core/vector_store.py` lines 24-67): all four. -/
def chromaHasMethod : StoreOp → Bool := fun _ => true

/-- The methods defined in the class body of `InMemoryVectorStoreWrapper`
(`src/core/vector_store.py` lines 70-95, likewise `src/src/core/vector_store.py`
lines 90-125): `add_documents`, `document_exists` and `create_retriever`
only — there is no `reset`, so Python attribute lookup for `reset` raises
`AttributeError`. -/
def inMemoryHasMethod : StoreOp → Bool
  | .add_documents => true
  | .document_exists => true
  | .create_retriever => true
  | .reset => false

/-- Python-loop annotation of `chunk_documents`
(`src/src/core/document_processor.py` lines 134-137): `for i, chunk in
enumerate(chunks): chunk.metadata["chunk_index"] = i;
chunk.metadata["total_chunks"] = len(chunks)`, started at index `i`. -/
def annotateChunks (total : Nat) : Nat → List Doc → List Doc
  | _, [] => []
  | i, c :: cs =>
    { c with metadata :=
        { c.metadata with chunk_index := some i, total_chunks := some total } } ::
      annotateChunks total (i + 1) cs

/-- Embedding of `chunk_documents` from `src/core/document_processor.py`
(lines 45-74).  `split` is the opaque `RecursiveCharacterTextSplitter
.split_documents` call; this copy returns the split chunks as they come —
it performs no `chunk_index`/`total_chunks` annotation. -/
def chunk_documents_core (split : List Doc → List Doc) (raw_documents : List Doc) :
    Except Str (List Doc) :=
  if raw_documents = [] then
    .error "No documents to chunk. The document may be empty.".data
  else
    let chunks := split raw_documents
    if chunks = [] then
      .error "Chunking produced no results. The document may contain no text.".data
    else
      .ok chunks

/-- Embedding of `chunk_documents` from `src/src/core/document_processor.py`
(lines 98-140): same guards, then the two-phase annotation — the full split
completes first, and only then is every chunk annotated with its global
index and the total count. -/
def chunk_documents_src (split : List Doc → List Doc) (raw_documents : List Doc) :
    Except Str (List Doc) :=
  if raw_documents = [] then
    .error "No documents to chunk. The document may be empty.".data
  else
    let chunks := split raw_documents
    if chunks = [] then
      .error "Chunking produced no results. The document may contain no text.".data
    else
      .ok (annotateChunks chunks.length 0 chunks)

/-- A splitter behaviour used for concrete evaluations: on input documents
shorter than `chunk_size`, `RecursiveCharacterTextSplitter.split_documents`
returns one chunk per page with the page's content and a copy of its
metadata. -/
def splitWholePages : List Doc → List Doc := fun ds => ds

/-- A leading segment of a string also occurs in it. -/
theorem pref_sub {t s : Str} (h : t <+: s) : t <:+: s := by
  obtain ⟨w, hw⟩ := h
  exact ⟨[], w, by simpa using hw⟩

/-- A trailing segment of a string also occurs in it. -/
theorem suff_sub {t s : Str} (h : t <:+ s) : t <:+: s := by
  obtain ⟨w, hw⟩ := h
  exact ⟨w, [], by simpa using hw⟩

/-- An occurrence inside `s` is an occurrence inside `c :: s`. -/
theorem sub_cons {t s : Str} (c : Char) (h : t <:+: s) : t <:+: c :: s := by
  obtain ⟨u, v, huv⟩ := h
  exact ⟨c :: u, v, by simp [huv]⟩

/-- The boolean leading-segment test agrees with `List.IsPrefix`. -/
theorem leadMatch_iff {t s : Str} : leadMatch t s = true ↔ t <+: s := by
  induction t generalizing s with
  | nil => simp [leadMatch]
  | cons a as ih =>
    cases s with
    | nil =>
      simp only [leadMatch, Bool.false_eq_true, false_iff]
      rintro ⟨w, hw⟩
      simp at hw
    | cons b bs =>
      simp only [leadMatch, Bool.and_eq_true, decide_eq_true_eq, ih]
      constructor
      · rintro ⟨rfl, w, hw⟩
        exact ⟨w, by simp [hw]⟩
      · rintro ⟨w, hw⟩
        simp only [List.cons_append, List.cons.injEq] at hw
        exact ⟨hw.1, w, hw.2⟩

/-- The boolean substring test agrees with `List.IsInfix`. -/
theorem containsStr_iff {t s : Str} : containsStr t s = true ↔ t <:+: s := by
  induction s with
  | nil =>
    simp only [containsStr, leadMatch_iff]
    constructor
    · exact fun h => pref_sub h
    · rintro ⟨u, v, huv⟩
      simp only [List.append_eq_nil] at huv
      obtain ⟨⟨-, rfl⟩, -⟩ := huv
      exact ⟨[], by simp⟩
  | cons c rest ih =>
    simp only [containsStr, Bool.or_eq_true, leadMatch_iff, ih]
    constructor
    · rintro (h | h)
      · exact pref_sub h
      · exact sub_cons c h
    · rintro ⟨u, v, huv⟩
      cases u with
      | nil =>
        left
        exact ⟨v, by simpa using huv⟩
      | cons x u' =>
        right
        simp only [List.cons_append, List.cons.injEq] at huv
        exact ⟨u', v, huv.2⟩

/-- Dropping leading whitespace leaves a trailing segment. -/
theorem dropLeadSpace_suff (s : Str) : dropLeadSpace s <:+ s := by
  induction s with
  | nil => exact ⟨[], rfl⟩
  | cons c rest ih =>
    by_cases h : isPySpace c = true
    · obtain ⟨w, hw⟩ := ih
      simp only [dropLeadSpace, h, if_true]
      exact ⟨c :: w, by simp [hw]⟩
    · simp only [dropLeadSpace, h, if_false]
      exact ⟨[], rfl⟩

/-- The stripped string occurs inside the original string. -/
theorem pyStrip_sub (s : Str) : pyStrip s <:+: s := by
  obtain ⟨w, hw⟩ := dropLeadSpace_suff s.reverse
  obtain ⟨u, hu⟩ := dropLeadSpace_suff ((dropLeadSpace s.reverse).reverse)
  refine ⟨u, w.reverse, ?_⟩
  have hs : (dropLeadSpace s.reverse).reverse ++ w.reverse = s := by
    have := congrArg List.reverse hw
    simpa [List.reverse_append] using this
  calc u ++ pyStrip s ++ w.reverse
      = (u ++ dropLeadSpace ((dropLeadSpace s.reverse).reverse)) ++ w.reverse := by
        simp [pyStrip, List.append_assoc]
    _ = (dropLeadSpace s.reverse).reverse ++ w.reverse := by rw [hu]
    _ = s := hs

/-- Structure of `splitLines`: the result is non-empty, its first line is a
leading segment of the input, and every line occurs inside the input. -/
theorem splitLines_struct (s : Str) :
    splitLines s ≠ [] ∧ (splitLines s).headD [] <+: s ∧
      ∀ p ∈ splitLines s, p <:+: s := by
  induction s with
  | nil =>
    refine ⟨by simp [splitLines], by simp [splitLines], ?_⟩
    intro p hp
    simp only [splitLines, List.mem_singleton] at hp
    subst hp
    exact ⟨[], [], rfl⟩
  | cons c rest ih =>
    obtain ⟨hne, hhead, hmem⟩ := ih
    by_cases hc : c = '\n'
    · subst hc
      have hstep : splitLines ('\n' :: rest) = [] :: splitLines rest := rfl
      refine ⟨by simp [hstep], by simp [hstep], ?_⟩
      intro p hp
      rw [hstep] at hp
      rcases List.mem_cons.mp hp with rfl | hp
      · exact ⟨[], '\n' :: rest, rfl⟩
      · exact sub_cons _ (hmem p hp)
    · cases hsl : splitLines rest with
      | nil => exact absurd hsl hne
      | cons l ls =>
        have hstep : splitLines (c :: rest) = (c :: l) :: ls := by
          simp [splitLines, hc, hsl]
        rw [hsl] at hhead hmem
        refine ⟨by simp [hstep], ?_, ?_⟩
        · rw [hstep]
          obtain ⟨w, hw⟩ := hhead
          exact ⟨w, by simp_all⟩
        · intro p hp
          rw [hstep] at hp
          rcases List.mem_cons.mp hp with rfl | hp
          · refine pref_sub ?_
            obtain ⟨w, hw⟩ := hhead
            exact ⟨w, by simp_all⟩
          · exact sub_cons c (hmem p (List.mem_cons_of_mem l hp))

/-- Every line produced by `splitLines` occurs inside the input. -/
theorem splitLines_mem_sub {p s : Str} (h : p ∈ splitLines s) : p <:+: s :=
  (splitLines_struct s).2.2 p h

/-- Occurrence is transitive. -/
theorem sub_trans {a b c : Str} (h1 : a <:+: b) (h2 : b <:+: c) : a <:+: c := by
  obtain ⟨u, v, hb⟩ := h1
  obtain ⟨w, x, hcq⟩ := h2
  refine ⟨w ++ u, v ++ x, ?_⟩
  rw [← hcq, ← hb]
  simp [List.append_assoc]

/-- An occurrence in `u ++ c :: v` of a string not containing `c` lies
entirely inside `u` or entirely inside `v`. -/
theorem sepSplit {t u v : Str} {c : Char} (hc : c ∉ t) (h : t <:+: u ++ c :: v) :
    t <:+: u ∨ t <:+: v := by
  obtain ⟨s, r, hsr⟩ := h
  have hsr' : u ++ ([c] ++ v) = s ++ (t ++ r) := by
    simp only [List.singleton_append, List.append_assoc] at hsr ⊢
    exact hsr.symm
  rcases List.append_eq_append_iff.mp hsr' with ⟨a', _, ha2⟩ | ⟨c', hc1, hc2⟩
  · cases a' with
    | nil =>
      cases t with
      | nil => exact Or.inl ⟨[], u, by simp⟩
      | cons x t' =>
        simp only [List.nil_append, List.append_assoc, List.cons_append,
          List.cons.injEq] at ha2
        exact absurd (ha2.1 ▸ List.mem_cons_self x t') hc
    | cons a0 a'' =>
      right
      simp only [List.cons_append, List.singleton_append, List.nil_append,
        List.cons.injEq] at ha2
      exact ⟨a'', r, by rw [ha2.2]; simp [List.append_assoc]⟩
  · rcases List.append_eq_append_iff.mp hc2 with ⟨w, hw1, _⟩ | ⟨w, hw1, hw2⟩
    · left
      exact ⟨s, w, by rw [hc1, hw1]; simp [List.append_assoc]⟩
    · cases w with
      | nil =>
        left
        exact suff_sub ⟨s, by rw [hc1, hw1]; simp⟩
      | cons w0 w' =>
        exfalso
        simp only [List.singleton_append, List.cons_append, List.cons.injEq] at hw2
        exact hc (hw1 ▸ List.mem_append.mpr (Or.inr (hw2.1 ▸ List.mem_cons_self w0 w')))

/-- An occurrence in a `c`-joined list of a non-empty string not containing
`c` lies inside one of the joined pieces. -/
theorem joinSep_mem_sub {t : Str} {c : Char} (ht : t ≠ []) (hc : c ∉ t) :
    ∀ ps : List Str, t <:+: joinSep [c] ps → ∃ p ∈ ps, t <:+: p
  | [], h => by
      exfalso
      obtain ⟨u, v, huv⟩ := h
      simp only [joinSep, List.append_eq_nil] at huv
      exact ht huv.1.2
  | [x], h => ⟨x, by simp, by simpa [joinSep] using h⟩
  | x :: y :: xs, h => by
      have hx : joinSep [c] (x :: y :: xs) = x ++ c :: joinSep [c] (y :: xs) := by
        simp [joinSep]
      rw [hx] at h
      rcases sepSplit hc h with h' | h'
      · exact ⟨x, by simp, h'⟩
      · obtain ⟨p, hp, hps⟩ := joinSep_mem_sub ht hc (y :: xs) h'
        exact ⟨p, List.mem_cons_of_mem x hp, hps⟩

/-- Whitespace normalization creates no new occurrence: an occurrence in
the normalized answer of a non-empty, newline-free string was already
present in the raw answer. -/
theorem normalize_sub {t s : Str} (ht : t ≠ []) (hc : '\n' ∉ t)
    (h : t <:+: normalizeAnswer s) : t <:+: s := by
  obtain ⟨p, hp, hps⟩ := joinSep_mem_sub ht hc _ h
  have hp' := List.mem_of_mem_filter hp
  obtain ⟨l, hl, rfl⟩ := List.mem_map.mp hp'
  exact sub_trans (sub_trans (sub_trans hps (pyStrip_sub l)) (splitLines_mem_sub hl))
    (pyStrip_sub s)

/-- When `old` does not occur in the remaining string, the replacement scan
leaves it unchanged. -/
theorem pyReplaceEmptyAux_of_not_sub {old : Str} :
    ∀ (fuel : Nat) (s : Str), ¬ old <:+: s → pyReplaceEmptyAux old fuel s = s
  | 0, _, _ => rfl
  | _ + 1, [], _ => rfl
  | fuel + 1, c :: rest, h => by
      have hm : leadMatch old (c :: rest) = false := by
        cases hlm : leadMatch old (c :: rest)
        · rfl
        · exact absurd (pref_sub (leadMatch_iff.mp hlm)) h
      simp only [pyReplaceEmptyAux, hm, Bool.and_false, Bool.false_eq_true, if_false]
      rw [pyReplaceEmptyAux_of_not_sub fuel rest (fun hsub => h (sub_cons c hsub))]

/-- Python `s.replace(old, '')` is the identity when `old` does not occur
in `s`. -/
theorem replaceEmpty_of_not_sub {old s : Str} (h : ¬ old <:+: s) :
    pyReplaceEmpty old s = s :=
  pyReplaceEmptyAux_of_not_sub s.length s h

/-- Annotation preserves the number of chunks. -/
theorem annotateChunks_length (total : Nat) :
    ∀ (i : Nat) (cs : List Doc), (annotateChunks total i cs).length = cs.length := by
  intro i cs
  induction cs generalizing i with
  | nil => rfl
  | cons c cs ih => simp [annotateChunks, ih]

/-- The chunk at position `j` of the annotated list carries index `i + j`
and the given total. -/
theorem annotateChunks_get (total : Nat) :
    ∀ (i : Nat) (cs : List Doc) (j : Nat) (h : j < (annotateChunks total i cs).length),
      ((annotateChunks total i cs).get ⟨j, h⟩).metadata.chunk_index = some (i + j) ∧
      ((annotateChunks total i cs).get ⟨j, h⟩).metadata.total_chunks = some total := by
  intro i cs
  induction cs generalizing i with
  | nil => intro j h; simp [annotateChunks] at h
  | cons c cs ih =>
    intro j h
    cases j with
    | zero => simp [annotateChunks]
    | succ j' =>
      have h' : j' < (annotateChunks total (i + 1) cs).length := by
        simpa [annotateChunks] using h
      have := ih (i + 1) j' h'
      constructor
      · have hx := this.1
        rw [show i + 1 + j' = i + (j' + 1) by omega] at hx
        simpa [annotateChunks] using hx
      · have hx := this.2
        simpa [annotateChunks] using hx

example : pyStrip "  ab c \n".data = "ab c".data := by decide
example : splitLines "a\n\nb".data = ["a".data, [], "b".data] := by decide
example : normalizeAnswer " x \n\n  y ".data = "x\ny".data := by decide
example : pyReplaceEmpty "ab".data "zababz".data = "zz".data := by decide
example : containsStr "bc".data "abcd".data = true := by decide
example : containsStr "bd".data "abcd".data = false := by decide

/-- C3 counterexample: the claim says both implementations raise on an
empty chunk sequence, but the in-memory wrapper's `add_documents`
(`src/core/vector_store.py` lines 77-79) has no guard and succeeds on the
empty batch, silently indexing nothing. -/
theorem C3_counterexample :
    InMemoryVectorStoreWrapper.add_documents [] [] = Except.ok [] ∧
    (ChromaVectorStore.add_documents [] ([] : List Doc)).isOk = false := by
  constructor <;> rfl

/-- C3 (amended): for every store state, the durable Chroma-backed `add`
rejects the empty chunk sequence with a `ValueError`, while the ephemeral
in-memory `add` accepts it and leaves the store unchanged — the two
implementations do not behave identically on the empty batch. -/
theorem C3_empty_batch_guard :
    ∀ store : List Doc,
      ChromaVectorStore.add_documents [] store =
        Except.error "No document chunks to index. The document may be empty or failed to load.".data ∧
      InMemoryVectorStoreWrapper.add_documents [] store = Except.ok store := by
  intro store
  refine ⟨rfl, ?_⟩
  simp [InMemoryVectorStoreWrapper.add_documents]

/-- C6: both existence checks are total boolean functions (the embedding
returns `Bool`, every handler path is covered), and whenever the backing
call fails with any exception, both return `false` rather than
propagating. -/
theorem C6_exists_never_raises :
    ∀ (e : Str) (file_name : Str),
      ChromaVectorStore.document_exists (Except.error e) file_name = false ∧
      InMemoryVectorStoreWrapper.document_exists (Except.error e) file_name = false := by
  intro e file_name
  exact ⟨rfl, rfl⟩

/-- C7: on a successful backing call, both existence checks return `true`
exactly when some listed chunk's stored source path contains the queried
filename as a substring; in particular a query for `report.pdf` matches a
stored path `final_report.pdf` — a false positive. -/
theorem C7_exists_substring_match :
    (∀ (ms : List (Option DocMeta)) (file_name : Str),
       ChromaVectorStore.document_exists (Except.ok ms) file_name = true ↔
         ∃ m ∈ ms.filterMap id, file_name <:+: m.source.getD []) ∧
    (∀ (ds : List Doc) (file_name : Str),
       InMemoryVectorStoreWrapper.document_exists (Except.ok ds) file_name = true ↔
         ∃ d ∈ ds, file_name <:+: d.metadata.source.getD []) ∧
    ChromaVectorStore.document_exists
      (Except.ok [some ⟨some "final_report.pdf".data, none, none, none, none⟩])
      "report.pdf".data = true := by
  refine ⟨?_, ?_, by decide⟩
  · intro ms file_name
    simp [ChromaVectorStore.document_exists, List.any_eq_true, containsStr_iff]
  · intro ds file_name
    by_cases h : ds = []
    · subst h
      simp [InMemoryVectorStoreWrapper.document_exists]
    · simp [InMemoryVectorStoreWrapper.document_exists, h, List.any_eq_true,
        containsStr_iff]

/-- C9 counterexample: the claim speaks of the reset operation of both
implementations, but the ephemeral wrapper's class body defines no `reset`
method at all (while the durable one does), so invoking it raises
`AttributeError` instead of clearing an in-process table. -/
theorem C9_counterexample :
    inMemoryHasMethod StoreOp.reset = false ∧ chromaHasMethod StoreOp.reset = true :=
  ⟨rfl, rfl⟩

/-- C9 (amended): the durable implementation's reset is idempotent — for
any outcome of the swallowed `delete_collection` call, resetting twice
leaves the persisted collection in the same state as resetting once (and a
successful delete leaves it empty); the ephemeral wrapper provides no
reset operation. -/
theorem C9_reset_idempotent :
    (∀ (deleteSucceeded : Bool) (store : List Doc),
       ChromaVectorStore.reset deleteSucceeded
           (ChromaVectorStore.reset deleteSucceeded store) =
         ChromaVectorStore.reset deleteSucceeded store) ∧
    (∀ store : List Doc, ChromaVectorStore.reset true store = []) ∧
    inMemoryHasMethod StoreOp.reset = false := by
  refine ⟨?_, fun store => rfl, rfl⟩
  intro b store
  cases b <;> simp [ChromaVectorStore.reset]

/-- A concrete one-page document used for evaluations. -/
def pageDoc : Doc :=
  ⟨"hello".data, ⟨some "doc.pdf".data, some "doc.pdf".data, some 1, none, none⟩⟩

/-- C8 counterexample: the `src/core` copy of `chunk_documents` (lines
45-74) returns the split chunks without ever setting `chunk_index` or
`total_chunks`, so its output chunks do not satisfy the claimed invariant —
the two-phase annotation exists only in the `src/src/core` copy. -/
theorem C8_counterexample :
    chunk_documents_core splitWholePages [pageDoc] = Except.ok [pageDoc] ∧
    pageDoc.metadata.chunk_index = none ∧ pageDoc.metadata.total_chunks = none := by
  refine ⟨?_, rfl, rfl⟩
  rfl

/-- C8 (amended): in the `src/src/core` copy of `chunk_documents`, whenever
chunking succeeds, the chunk at every position `j` of the result carries
`chunk_index = j` (globally sequential) and `total_chunks` equal to the
length of the full result, hence `0 ≤ chunk_index < total_chunks`; the
fields are assigned by the annotation pass that runs only after the split
completes.  The `src/core` copy performs no such annotation. -/
theorem C8_chunk_index_invariant :
    ∀ (split : List Doc → List Doc) (raw cs : List Doc),
      chunk_documents_src split raw = Except.ok cs →
      ∀ (j : Nat) (h : j < cs.length),
        (cs.get ⟨j, h⟩).metadata.chunk_index = some j ∧
        (cs.get ⟨j, h⟩).metadata.total_chunks = some cs.length := by
  intro split raw cs hok j h
  unfold chunk_documents_src at hok
  by_cases h1 : raw = []
  · simp [h1] at hok
  · simp only [h1, if_false] at hok
    by_cases h2 : split raw = []
    · simp [h2] at hok
    · simp only [h2, if_false] at hok
      injection hok with h3
      subst h3
      have hlen := annotateChunks_length (split raw).length 0 (split raw)
      have hget := annotateChunks_get (split raw).length 0 (split raw) j h
      rw [Nat.zero_add] at hget
      exact ⟨hget.1, hget.2.trans (congrArg some hlen.symm)⟩

example : chunk_documents_src splitWholePages [pageDoc] =
    Except.ok [⟨"hello".data, ⟨some "doc.pdf".data, some "doc.pdf".data, some 1, some 0, some 1⟩⟩] :=
  rfl

/-- The error-prefixed string of the outer exception handler is never
empty. -/
theorem errPre_ne (e : Str) : errorPrefix ++ e ≠ [] := by
  simp only [ne_eq, List.append_eq_nil, not_and]
  intro h
  exact absurd h (by decide)

/-- C4: if retrieval fails, the pipeline returns the formatted error string
with the empty citation list; if retrieval succeeds and the first model
invocation fails, it returns the formatted error string with the citation
list already built from the retrieved chunks.  No exception crosses the
boundary (the embedding returns a value on every path). -/
theorem C4_error_paths_return_string :
    ∀ (env : PipelineEnv) (en av : Bool) (e : Str),
      (env.retrieval = Except.error e →
        generate_enhanced_answer env en av = (errorPrefix ++ e, [], [])) ∧
      (∀ docs : List Doc, env.retrieval = Except.ok docs →
        env.firstResponse = Except.error e →
        generate_enhanced_answer env en av =
          (errorPrefix ++ e, (format_docs_with_metadata docs).2, [])) := by
  intro env en av e
  obtain ⟨ret, fst, lkp, snd⟩ := env
  constructor
  · rintro rfl
    rfl
  · rintro docs rfl rfl
    rfl

/-- C4 witness at a concrete failing retrieval. -/
theorem C4_witness :
    generate_enhanced_answer
        ⟨Except.error "boom".data, Except.error [], Except.error [], Except.error []⟩
        true true = (errorPrefix ++ "boom".data, [], []) :=
  (C4_error_paths_return_string _ true true "boom".data).1 rfl

/-- C10: on every path where retrieval succeeded (no escalation, escalation
succeeded, escalation failed, and even a failing first model call), the
source list returned by the pipeline is exactly the one built by
`format_docs_with_metadata` from the initially retrieved chunks — the
external search and the second model call never change it. -/
theorem C10_sources_frame :
    ∀ (env : PipelineEnv) (en av : Bool) (docs : List Doc),
      env.retrieval = Except.ok docs →
      (generate_enhanced_answer env en av).2.1 = (format_docs_with_metadata docs).2 := by
  intro env en av docs h
  obtain ⟨ret, fst, lkp, snd⟩ := env
  subst h
  cases fst with
  | error e => rfl
  | ok initial =>
    simp only [generate_enhanced_answer]
    split
    · cases lkp with
      | error e => rfl
      | ok ext =>
        cases snd with
        | error e => rfl
        | ok fin => rfl
    · rfl

/-- C10 witness on a concrete successful retrieval with escalation. -/
theorem C10_witness :
    (generate_enhanced_answer
        ⟨Except.ok [pageDoc], Except.ok sentinel, Except.ok [], Except.ok "ans".data⟩
        true true).2.1 = (format_docs_with_metadata [pageDoc]).2 :=
  C10_sources_frame _ true true [pageDoc] rfl

/-- C5: on the escalation path (escalation enabled, sentinel present,
adapter available), if the external lookup or the second model invocation
raises, the request still succeeds: the pipeline returns the first-pass
answer with the sentinel replaced away and stripped (or the fixed fallback
if that is empty), the document-derived citation list unchanged, and the
escalation failure surfaced as a displayed error message alongside the
earlier info message — no exception propagates. -/
theorem C5_escalation_failure_fallback :
    ∀ (env : PipelineEnv) (docs : List Doc) (initial e : Str),
      env.retrieval = Except.ok docs →
      env.firstResponse = Except.ok initial →
      sentinel <:+: initial →
      (env.lookupResult = Except.error e ∨
        (∃ ext, env.lookupResult = Except.ok ext ∧ env.secondResponse = Except.error e)) →
      generate_enhanced_answer env true true =
        ((if pyStrip (pyReplaceEmpty sentinel initial) = [] then insufficientMsg
          else pyStrip (pyReplaceEmpty sentinel initial)),
         (format_docs_with_metadata docs).2,
         [UIEvent.info searchingMsg, UIEvent.uiError (searchFailedPrefix ++ e)]) := by
  intro env docs initial e hr hf hs hfail
  obtain ⟨ret, fst, lkp, snd⟩ := env
  subst hr
  subst hf
  have hcs : containsStr sentinel initial = true := containsStr_iff.mpr hs
  rcases hfail with hl | ⟨ext, hl, hsnd⟩
  · subst hl
    simp [generate_enhanced_answer, hcs]
  · subst hl
    subst hsnd
    simp [generate_enhanced_answer, hcs]

/-- C5 witness: a concrete run with a failing external lookup. -/
theorem C5_witness :
    generate_enhanced_answer
        ⟨Except.ok [], Except.ok sentinel, Except.error "boom".data, Except.error []⟩
        true true =
      (insufficientMsg, [],
       [UIEvent.info searchingMsg, UIEvent.uiError (searchFailedPrefix ++ "boom".data)]) := by
  have h := C5_escalation_failure_fallback
      ⟨Except.ok [], Except.ok sentinel, Except.error "boom".data, Except.error []⟩
      [] sentinel "boom".data rfl rfl (by decide) (Or.inl rfl)
  rw [h]
  decide

/-- The escalation-success path shape: escalation enabled and available,
retrieval and first model call succeeded with the sentinel present, the
external lookup and the second model call both succeeded, and the pipeline
answer is the normalized second response. -/
def escalationSucceeded (env : PipelineEnv) (en av : Bool) : Prop :=
  en = true ∧ av = true ∧
  ∃ docs initial ext fin,
    env.retrieval = Except.ok docs ∧ env.firstResponse = Except.ok initial ∧
    sentinel <:+: initial ∧ env.lookupResult = Except.ok ext ∧
    env.secondResponse = Except.ok fin ∧
    (generate_enhanced_answer env en av).1 = normalizeAnswer fin ∧
    normalizeAnswer fin = []

/-- C2 counterexample: the claim says the pipeline never returns an empty
string, but on the escalation-success path (`rag_chain.py` lines 129-132)
the normalized enhanced answer is returned without the fallback check: a
whitespace-only second model response yields the empty answer. -/
theorem C2_counterexample :
    (generate_enhanced_answer
        ⟨Except.ok [], Except.ok sentinel, Except.ok [], Except.ok " ".data⟩
        true true).1 = [] := by
  decide

/-- C2 (amended): an empty answer can escape only through the
escalation-success path, whose normalized second response the code returns
without a fallback check; every other path (error paths, the
no-escalation finalize path with its fallback substitution, and the
escalation-failure fallback) returns a non-empty string.  In particular,
with an empty corpus, escalation enabled, a first-pass answer consisting
of exactly the sentinel, and the adapter unavailable, the result is
exactly the fixed insufficient-information fallback. -/
theorem C2_empty_only_on_escalation_success :
    (∀ (env : PipelineEnv) (en av : Bool),
       (generate_enhanced_answer env en av).1 = [] → escalationSucceeded env en av) ∧
    (generate_enhanced_answer
        ⟨Except.ok [], Except.ok sentinel, Except.error [], Except.error []⟩
        true false).1 = insufficientMsg := by
  refine ⟨?_, by decide⟩
  intro env en av hempty
  obtain ⟨ret, fst, lkp, snd⟩ := env
  cases ret with
  | error e => exact absurd hempty (errPre_ne e)
  | ok docs =>
    cases fst with
    | error e => exact absurd hempty (errPre_ne e)
    | ok initial =>
      simp only [generate_enhanced_answer] at hempty
      by_cases hcond : (en && containsStr sentinel initial && av) = true
      · rw [if_pos hcond] at hempty
        cases lkp with
        | error e =>
          simp only [] at hempty
          split at hempty
          · exact absurd hempty (by decide)
          · next hne => exact absurd hempty hne
        | ok ext =>
          cases snd with
          | error e =>
            simp only [] at hempty
            split at hempty
            · exact absurd hempty (by decide)
            · next hne => exact absurd hempty hne
          | ok fin =>
            simp only [] at hempty
            obtain ⟨h1, hav⟩ := Bool.and_eq_true_iff.mp hcond
            obtain ⟨hen, hcs⟩ := Bool.and_eq_true_iff.mp h1
            refine ⟨hen, hav, docs, initial, ext, fin, rfl, rfl,
              containsStr_iff.mp hcs, rfl, rfl, ?_, hempty⟩
            subst hen
            subst hav
            simp [generate_enhanced_answer, hcs]
      · rw [if_neg hcond] at hempty
        cases en with
        | true =>
          simp at hempty
          split at hempty
          · exact absurd hempty (by decide)
          · next hne => exact absurd hempty hne
        | false =>
          simp at hempty
          split at hempty
          · exact absurd hempty (by decide)
          · next hne => exact absurd hempty hne

/-- C2 witness: the escalation-success shape extracted from a concrete
empty-answer run. -/
theorem C2_witness :
    escalationSucceeded
      ⟨Except.ok [], Except.ok sentinel, Except.ok [], Except.ok " ".data⟩ true true :=
  C2_empty_only_on_escalation_success.1
    ⟨Except.ok [], Except.ok sentinel, Except.ok [], Except.ok " ".data⟩ true true
    (by decide)

/-- A first-pass answer on which the single-pass replacement splices a new
sentinel occurrence out of the two fragments surrounding the removed one. -/
def spliceInput : Str := "[EXTERNAL".data ++ sentinel ++ "_SEARCH_NEEDED]".data

/-- C1 counterexample: the sentinel can survive into the returned answer in
three of the four claimed scenarios.  With escalation disabled the
first-pass answer is returned without any stripping (`rag_chain.py` line
145); on the escalation-success path the second response is returned
without stripping (lines 129-132); and on the sentinel-present
non-escalated path the single left-to-right replacement (line 148) can
splice a fresh occurrence out of the surrounding fragments. -/
theorem C1_counterexample :
    sentinel <:+:
      (generate_enhanced_answer
          ⟨Except.ok [], Except.ok sentinel, Except.error [], Except.error []⟩
          false true).1 ∧
    sentinel <:+:
      (generate_enhanced_answer
          ⟨Except.ok [], Except.ok sentinel, Except.ok [], Except.ok sentinel⟩
          true true).1 ∧
    sentinel <:+:
      (generate_enhanced_answer
          ⟨Except.ok [], Except.ok spliceInput, Except.error [], Except.error []⟩
          true false).1 := by
  refine ⟨by decide, by decide, by decide⟩

/-- C1 (amended): when escalation is enabled and the first model invocation
succeeds with an output in which the sentinel does not occur, the sentinel
does not occur in the returned answer either (for any adapter
availability); in the other three scenarios the code does not strip (or
can splice) the token, so no such guarantee holds there. -/
theorem C1_no_sentinel_when_not_emitted :
    ∀ (env : PipelineEnv) (av : Bool) (docs : List Doc) (initial : Str),
      env.retrieval = Except.ok docs →
      env.firstResponse = Except.ok initial →
      ¬ sentinel <:+: initial →
      ¬ sentinel <:+: (generate_enhanced_answer env true av).1 := by
  intro env av docs initial hr hf hns hcontra
  obtain ⟨ret, fst, lkp, snd⟩ := env
  subst hr
  subst hf
  have hcs : containsStr sentinel initial = false := by
    cases h : containsStr sentinel initial
    · rfl
    · exact absurd (containsStr_iff.mp h) hns
  have hrew : (generate_enhanced_answer
      ⟨Except.ok docs, Except.ok initial, lkp, snd⟩ true av).1 =
      (if normalizeAnswer (pyReplaceEmpty sentinel initial) = [] then insufficientMsg
       else normalizeAnswer (pyReplaceEmpty sentinel initial)) := by
    simp [generate_enhanced_answer, hcs]
  rw [hrew, replaceEmpty_of_not_sub hns] at hcontra
  by_cases hempty : normalizeAnswer initial = []
  · rw [if_pos hempty] at hcontra
    exact absurd hcontra (by decide)
  · rw [if_neg hempty] at hcontra
    exact hns (normalize_sub (by decide) (by decide) hcontra)

/-- C1 witness: a concrete sentinel-free first-pass answer. -/
theorem C1_witness :
    ¬ sentinel <:+:
      (generate_enhanced_answer
          ⟨Except.ok [], Except.ok "hello".data, Except.error [], Except.error []⟩
          true true).1 :=
  C1_no_sentinel_when_not_emitted
    ⟨Except.ok [], Except.ok "hello".data, Except.error [], Except.error []⟩
    true [] "hello".data rfl rfl (by decide)

/-- C8 witness: the chunk-index invariant evaluated on a concrete one-page
input of the annotating chunker copy. -/
theorem C8_witness :
    (([⟨"hello".data, ⟨some "doc.pdf".data, some "doc.pdf".data, some 1, some 0, some 1⟩⟩] :
        List Doc).get ⟨0, by decide⟩).metadata.chunk_index = some 0 ∧
    (([⟨"hello".data, ⟨some "doc.pdf".data, some "doc.pdf".data, some 1, some 0, some 1⟩⟩] :
        List Doc).get ⟨0, by decide⟩).metadata.total_chunks =
      some ([⟨"hello".data, ⟨some "doc.pdf".data, some "doc.pdf".data, some 1, some 0, some 1⟩⟩] :
        List Doc).length :=
  C8_chunk_index_invariant splitWholePages [pageDoc] _ rfl 0 (by decide)
